import Mathlib

/-!
Verification of the erasure-code / data-availability efficiency model
(`codes.py`, `schemes.py`, `fri.py`).  Python integers are modelled as `ℤ`,
Python float arithmetic (which only ever combines exact integer inputs with
`math.log`/`math.log2`/division) is modelled as exact real arithmetic, and
`math.ceil` as `Int.ceil`.  Functions guarded by `assert` statements, or that
can raise (`TypeError` from a missing dataclass field, `ValueError` from
`math.log2` on a non-positive argument), are modelled as `Option`-valued,
`none` meaning the Python call raises.
-/

/-- Statistical security parameter for soundness (`SECPAR_SOUND = 40`). -/
def SECPAR_SOUND : ℤ := 40

/-- Size of a SHA256 hash in bits (`HASH_SIZE = 256`). -/
def HASH_SIZE : ℤ := 256

/-- Embeds `samples_from_reception(sec_par, reception, codeword_len)` from
`codes.py`: number of samples needed to reconstruct with probability at least
`1 - 2^(-sec_par)`, via a (generalized) coupon collector bound. -/
noncomputable def samples_from_reception (sec_par reception codeword_len : ℤ) : ℤ :=
  if reception = 1 then 1
  else if reception = codeword_len then
    ⌈((codeword_len : ℝ) / Real.logb 2 (Real.exp 1)) *
      (Real.logb 2 (codeword_len : ℝ) + (sec_par : ℝ))⌉
  else
    ⌈-(sec_par : ℝ) / Real.logb 2 (((reception : ℝ) - 1) / (codeword_len : ℝ)) +
      (1 - Real.logb (((reception : ℝ) - 1) / (codeword_len : ℝ)) (Real.exp 1)) *
        ((reception : ℝ) - 1)⌉

/-- Option-valued version of `samples_from_reception`, faithful to the raise
behaviour of the source, with the error paths in source order: on the
`reception == codeword_len` branch `math.log(n, 2)` raises `ValueError` for
`n ≤ 0`; on the generalized branch `delta / codeword_len` raises
`ZeroDivisionError` for `codeword_len = 0`, `math.log2(c)` raises
`ValueError` for `c ≤ 0` (equivalently `(reception - 1) * codeword_len ≤ 0`
once `codeword_len ≠ 0`), and `-sec_par / math.log2(c)` raises
`ZeroDivisionError` for `c = 1` (equivalently `reception - 1 = codeword_len`).
On the non-raising inputs it returns `some` of `samples_from_reception`. -/
noncomputable def samples_from_reception_checked (sec_par reception codeword_len : ℤ) :
    Option ℤ :=
  if reception = 1 then some 1
  else if reception = codeword_len then
    if codeword_len ≤ 0 then none
    else some ⌈((codeword_len : ℝ) / Real.logb 2 (Real.exp 1)) *
      (Real.logb 2 (codeword_len : ℝ) + (sec_par : ℝ))⌉
  else if codeword_len = 0 then none
  else if (reception - 1) * codeword_len ≤ 0 then none
  else if reception - 1 = codeword_len then none
  else some ⌈-(sec_par : ℝ) / Real.logb 2 (((reception : ℝ) - 1) / (codeword_len : ℝ)) +
    (1 - Real.logb (((reception : ℝ) - 1) / (codeword_len : ℝ)) (Real.exp 1)) *
      ((reception : ℝ) - 1)⌉

/-- The `Code` dataclass of `codes.py`: an erasure-code descriptor. -/
structure Code where
  size_msg_symbol : ℤ
  size_code_symbol : ℤ
  msg_len : ℤ
  codeword_len : ℤ
  reception : ℤ
  samples : ℤ
deriving DecidableEq, Repr

/-- Embeds `Code.interleave(self, ell)`. -/
def Code.interleave (self : Code) (ell : ℤ) : Code :=
  ⟨self.size_msg_symbol * ell, self.size_code_symbol * ell,
    self.msg_len, self.codeword_len, self.reception, self.samples⟩

/-- Embeds `Code.__eq__`: equality of codes compares the five fields other
than `samples`. -/
def Code.eqv (self other : Code) : Bool :=
  self.size_msg_symbol == other.size_msg_symbol
    && self.size_code_symbol == other.size_code_symbol
    && self.msg_len == other.msg_len
    && self.codeword_len == other.codeword_len
    && self.reception == other.reception

open Classical in
/-- Embeds `Code.tensor(self, col)` with every raise path modelled as `none`,
in source order: the three `assert` statements; a raise inside
`samples_from_reception`; `ValueError` from `math.log2` on a non-positive
argument in `lognc`, `lognr`, `logbinomr` (`log2(self.reception - 1)`),
`loginnerr`, `logbinomc` and `loginnerc`; `ZeroDivisionError` from the
division by `codeword_len`; and `ZeroDivisionError` from the division by
`loginnerr` (resp. `loginnerc`) when that logarithm is zero. -/
noncomputable def Code.tensor (self col : Code) : Option Code :=
  if self.size_msg_symbol = col.size_msg_symbol ∧
      self.size_code_symbol = col.size_code_symbol ∧
      self.size_msg_symbol = self.size_code_symbol then
    let row_dist := self.codeword_len - self.reception + 1
    let col_dist := col.codeword_len - col.reception + 1
    let codeword_len := self.codeword_len * col.codeword_len
    let reception := codeword_len - row_dist * col_dist + 1
    (samples_from_reception_checked SECPAR_SOUND reception codeword_len).bind
      (fun samples_via_reception =>
        if col.codeword_len ≤ 0 then none
        else if self.codeword_len ≤ 0 then none
        else if self.reception - 1 ≤ 0 then none
        else if codeword_len = 0 then none
        else if 1 - ((self.codeword_len : ℝ) - (self.reception : ℝ) + 1) /
            (codeword_len : ℝ) ≤ 0 then none
        else if col.reception - 1 ≤ 0 then none
        else if 1 - ((col.codeword_len : ℝ) - (col.reception : ℝ) + 1) /
            (codeword_len : ℝ) ≤ 0 then none
        else if Real.logb 2 (1 - ((self.codeword_len : ℝ) - (self.reception : ℝ) + 1) /
            (codeword_len : ℝ)) = 0 then none
        else if Real.logb 2 (1 - ((col.codeword_len : ℝ) - (col.reception : ℝ) + 1) /
            (codeword_len : ℝ)) = 0 then none
        else
          let loge := Real.logb 2 (Real.exp 1)
          let lognc := Real.logb 2 (col.codeword_len : ℝ)
          let lognr := Real.logb 2 (self.codeword_len : ℝ)
          let logbinomr := ((self.reception : ℝ) - 1) *
            (lognr + loge - Real.logb 2 ((self.reception : ℝ) - 1))
          let loginnerr := Real.logb 2
            (1 - ((self.codeword_len : ℝ) - (self.reception : ℝ) + 1) / (codeword_len : ℝ))
          let logbinomc := ((col.reception : ℝ) - 1) *
            (lognc + loge - Real.logb 2 ((col.reception : ℝ) - 1))
          let loginnerc := Real.logb 2
            (1 - ((col.codeword_len : ℝ) - (col.reception : ℝ) + 1) / (codeword_len : ℝ))
          let samples_direct_via_rows := ⌈-(lognc + logbinomr + (SECPAR_SOUND : ℝ)) / loginnerr⌉
          let samples_direct_via_cols := ⌈-(lognr + logbinomc + (SECPAR_SOUND : ℝ)) / loginnerc⌉
          let samples_direct := min samples_direct_via_rows samples_direct_via_cols
          let samples := min samples_direct samples_via_reception
          some ⟨self.size_msg_symbol, self.size_code_symbol, self.msg_len * col.msg_len,
            codeword_len, reception, samples⟩)
  else none

/-- Embeds `makeRSCode(fsize, k, n)`: Reed-Solomon code for a degree `k-1`
polynomial over a field with `fsize`-bit elements, evaluated at `n` points.
The two `assert` statements (`k <= n` and `2**fsize >= n`) become the guard
(Python `2**fsize` is exact rational exponentiation for integer `fsize`), and
a raise inside the `samples_from_reception` call propagates as `none`. -/
noncomputable def makeRSCode (fsize k n : ℤ) : Option Code :=
  if k ≤ n ∧ (n : ℚ) ≤ (2 : ℚ) ^ fsize then
    (samples_from_reception_checked SECPAR_SOUND k n).map
      (fun s => ⟨fsize, fsize, k, n, k, s⟩)
  else none

/-- Embeds `makeTrivialCode(chunksize, k)`: the identity code; a raise inside
the `samples_from_reception` call propagates as `none`. -/
noncomputable def makeTrivialCode (chunksize k : ℤ) : Option Code :=
  (samples_from_reception_checked SECPAR_SOUND k k).map
    (fun s => ⟨chunksize, chunksize, k, k, k, s⟩)

/-- Models Python dataclass construction `Code(...)` with keyword arguments:
every one of the six fields is mandatory (none has a default), so the call
raises `TypeError` (`none`) when any field is not supplied. -/
def buildCode (size_msg_symbol size_code_symbol msg_len codeword_len reception samples :
    Option ℤ) : Option Code :=
  match size_msg_symbol, size_code_symbol, msg_len, codeword_len, reception, samples with
  | some a, some b, some c, some d, some e, some f => some ⟨a, b, c, d, e, f⟩
  | _, _, _, _, _, _ => none

/-- The `Scheme` dataclass of `schemes.py`. -/
structure Scheme where
  code : Code
  com_size : ℤ
  opening_overhead : ℤ
deriving DecidableEq, Repr

/-- Modelled from the spec: `Code.num_samples_to_reconstruction` is called by
`Scheme.samples` in `schemes.py` but is not defined in the provided
`codes.py`; per the spec it belongs to the repository's soundness-parameterized
variant of the code model, in which the sampling bound is "recomputed on
demand from a caller-supplied soundness parameter via
`numSamplesToReconstruction`", i.e. the sampling bound of §4.1 applied to the
code's own reception and codeword length. -/
noncomputable def Code.num_samples_to_reconstruction (self : Code) (sec_par : ℤ) : ℤ :=
  samples_from_reception sec_par self.reception self.codeword_len

/-- Embeds `Scheme.samples(self, sec_par=SECPAR_SOUND)` at its default
argument. -/
noncomputable def Scheme.samples (self : Scheme) : ℤ :=
  self.code.num_samples_to_reconstruction SECPAR_SOUND

/-- Embeds `Scheme.comm_per_query(self)`. -/
noncomputable def Scheme.comm_per_query (self : Scheme) : ℝ :=
  Real.logb 2 (self.code.codeword_len : ℝ) + (self.opening_overhead : ℝ) +
    (self.code.size_code_symbol : ℝ)

/-- Embeds `Scheme.total_comm(self)`. -/
noncomputable def Scheme.total_comm (self : Scheme) : ℝ :=
  self.comm_per_query * (self.samples : ℝ)

/-- Embeds `Scheme.encoding_size(self)`. -/
def Scheme.encoding_size (self : Scheme) : ℤ :=
  self.code.codeword_len * (self.opening_overhead + self.code.size_code_symbol)

/-- Embeds `makeNaiveScheme(datasize)` from `schemes.py`.  The `Code(...)`
call supplies only five of the six mandatory fields (no `samples`), so the
dataclass constructor raises. -/
def makeNaiveScheme (datasize : ℤ) : Option Scheme :=
  (buildCode (some datasize) (some datasize) (some 1) (some 1) (some 1) none).map
    (fun code => ⟨code, HASH_SIZE, 0⟩)

/-- Embeds `makeMerkleScheme(datasize, chunksize=1024)` from `schemes.py`.
Again the `Code(...)` call does not supply `samples`. -/
noncomputable def makeMerkleScheme (datasize chunksize : ℤ) : Option Scheme :=
  let k := ⌈(datasize : ℝ) / (chunksize : ℝ)⌉
  (buildCode (some chunksize) (some chunksize) (some k) (some k) (some k) none).map
    (fun code => ⟨code, HASH_SIZE, ⌈Real.logb 2 (k : ℝ)⌉ * HASH_SIZE⟩)

/-- Proof-of-work grinding discount (`GRINDING = 20` in `fri.py`). -/
def GRINDING : ℤ := 20

/-- Random-oracle query budget (`RO_QUERIES = 60` in `fri.py`). -/
def RO_QUERIES : ℤ := 60

/-- Statistical security target (`STATISTICAL_SECURITY = 40` in `fri.py`). -/
def STATISTICAL_SECURITY : ℤ := 40

/-- `FRI_SOUNDNESS = STATISTICAL_SECURITY + RO_QUERIES - GRINDING`. -/
def FRI_SOUNDNESS : ℤ := STATISTICAL_SECURITY + RO_QUERIES - GRINDING

/-- The quantity `logeps1 = 1 + ceil(log2(domainsize*(max(fanin,batchsize)-1))) - fsize`
computed at the start of `friNumRepetitions` in `fri.py`. -/
noncomputable def friLogEps1 (domainsize fsize batchsize fanin : ℤ) : ℤ :=
  1 + ⌈Real.logb 2 ((domainsize * (max fanin batchsize - 1) : ℤ) : ℝ)⌉ - fsize

open Classical in
/-- Embeds `friNumRepetitions(rate, domainsize, fsize, batchsize, fanin)` from
`fri.py`.  `none` models a raised exception: `math.log2` on a non-positive
argument (`ValueError`), or either of the two `assert` statements failing. -/
noncomputable def friNumRepetitions (rate : ℝ) (domainsize fsize batchsize fanin : ℤ) :
    Option ℤ :=
  if 0 < domainsize * (max fanin batchsize - 1) then
    if friLogEps1 domainsize fsize batchsize fanin ≤ -FRI_SOUNDNESS then
      if 0 < 1 - 0.5 * (1 - rate) then
        if Real.logb 2 (1 - 0.5 * (1 - rate)) < 0 then
          some ⌈-(FRI_SOUNDNESS : ℝ) / Real.logb 2 (1 - 0.5 * (1 - rate))⌉
        else none
      else none
    else none
  else none

/-- Fuel-indexed unfolding of the `while dimension < mink` loop in
`friNumRounds` (`fri.py`): each iteration multiplies `dimension` by `fanin`
and counts one round; `none` when the fuel runs out before the loop exits. -/
def friNumRoundsAux (fanin mink : ℤ) : ℕ → ℤ → Option ℕ
  | 0, dimension => if dimension < mink then none else some 0
  | fuel + 1, dimension =>
      if dimension < mink then
        (friNumRoundsAux fanin mink fuel (dimension * fanin)).map (· + 1)
      else some 0

/-- Embeds `friNumRounds(mink, fanin, basedimension)` from `fri.py`, with fuel
`mink.toNat` (shown sufficient whenever `mink ≥ 1`, `fanin ≥ 2`,
`basedimension ≥ 1`; termination of the Python loop is `= some r`). -/
def friNumRounds (mink fanin basedimension : ℤ) : Option ℕ :=
  friNumRoundsAux fanin mink mink.toNat basedimension

/-- The reception-based sampling bound for a tensor code, as computed in
`Code.tensor` (`samples_via_reception`). -/
noncomputable def tensorSamplesViaReception (row col : Code) : ℤ :=
  samples_from_reception SECPAR_SOUND
    (row.codeword_len * col.codeword_len -
      (row.codeword_len - row.reception + 1) *
        (col.codeword_len - col.reception + 1) + 1)
    (row.codeword_len * col.codeword_len)

/-- The row-direct union-bound sample count for a tensor code, as computed in
`Code.tensor` (`samples_direct_via_rows`). -/
noncomputable def tensorSamplesDirectViaRows (row col : Code) : ℤ :=
  ⌈-(Real.logb 2 (col.codeword_len : ℝ) +
      ((row.reception : ℝ) - 1) *
        (Real.logb 2 (row.codeword_len : ℝ) + Real.logb 2 (Real.exp 1) -
          Real.logb 2 ((row.reception : ℝ) - 1)) + (SECPAR_SOUND : ℝ)) /
    Real.logb 2 (1 - ((row.codeword_len : ℝ) - (row.reception : ℝ) + 1) /
      ((row.codeword_len * col.codeword_len : ℤ) : ℝ))⌉

/-- The column-direct union-bound sample count for a tensor code, as computed
in `Code.tensor` (`samples_direct_via_cols`). -/
noncomputable def tensorSamplesDirectViaCols (row col : Code) : ℤ :=
  ⌈-(Real.logb 2 (row.codeword_len : ℝ) +
      ((col.reception : ℝ) - 1) *
        (Real.logb 2 (col.codeword_len : ℝ) + Real.logb 2 (Real.exp 1) -
          Real.logb 2 ((col.reception : ℝ) - 1)) + (SECPAR_SOUND : ℝ)) /
    Real.logb 2 (1 - ((col.codeword_len : ℝ) - (col.reception : ℝ) + 1) /
      ((row.codeword_len * col.codeword_len : ℤ) : ℝ))⌉

/-- Claim C5: `interleave` multiplies both symbol sizes by `ell` and leaves
`msg_len`, `codeword_len`, `reception` and `samples` unchanged; in particular
`interleave(code, 1)` equals the original code under the `__eq__` equality,
which compares only the five fields other than `samples`. -/
theorem claim_C5 (c : Code) (ell : ℤ) (hell : 1 ≤ ell) :
    (c.interleave ell).size_msg_symbol = c.size_msg_symbol * ell ∧
    (c.interleave ell).size_code_symbol = c.size_code_symbol * ell ∧
    (c.interleave ell).msg_len = c.msg_len ∧
    (c.interleave ell).codeword_len = c.codeword_len ∧
    (c.interleave ell).reception = c.reception ∧
    (c.interleave ell).samples = c.samples ∧
    (c.interleave 1).eqv c = true := by
  refine ⟨rfl, rfl, rfl, rfl, rfl, rfl, ?_⟩
  simp [Code.interleave, Code.eqv]

/-- Witness for C5 at a concrete code and `ell = 3`. -/
theorem claim_C5_witness :
    (1 : ℤ) ≤ 3 ∧
    ((Code.mk 2 2 4 8 4 7).interleave 3).size_msg_symbol = 2 * 3 ∧
    ((Code.mk 2 2 4 8 4 7).interleave 3).size_code_symbol = 2 * 3 ∧
    ((Code.mk 2 2 4 8 4 7).interleave 3).msg_len = 4 ∧
    ((Code.mk 2 2 4 8 4 7).interleave 3).codeword_len = 8 ∧
    ((Code.mk 2 2 4 8 4 7).interleave 3).reception = 4 ∧
    ((Code.mk 2 2 4 8 4 7).interleave 3).samples = 7 ∧
    ((Code.mk 2 2 4 8 4 7).interleave 1).eqv (Code.mk 2 2 4 8 4 7) = true :=
  ⟨by decide, claim_C5 (Code.mk 2 2 4 8 4 7) 3 (by decide)⟩

/-- Claim C10: `makeNaiveScheme` and `makeMerkleScheme` construct `Code`
without the mandatory `samples` field, so both fail at `Code` construction and
never return a `Scheme`. -/
theorem claim_C10 (datasize chunksize : ℤ) :
    makeNaiveScheme datasize = none ∧ makeMerkleScheme datasize chunksize = none :=
  ⟨rfl, rfl⟩

/-- On the valid range `1 ≤ reception ≤ codeword_len` the source raises
nothing, so the checked bound is `some` of the total one. -/
theorem samples_from_reception_checked_eq (sec_par r n : ℤ) (h1 : 1 ≤ r) (h2 : r ≤ n) :
    samples_from_reception_checked sec_par r n =
      some (samples_from_reception sec_par r n) := by
  unfold samples_from_reception_checked samples_from_reception
  by_cases hr1 : r = 1
  · rw [if_pos hr1, if_pos hr1]
  · rw [if_neg hr1, if_neg hr1]
    by_cases hrn : r = n
    · rw [if_pos hrn, if_pos hrn, if_neg (by omega)]
    · have hprod : (0 : ℤ) < (r - 1) * n :=
        mul_pos (by omega) (by omega)
      rw [if_neg hrn, if_neg hrn, if_neg (by omega), if_neg (by omega), if_neg (by omega)]

/-- For `reception ≤ 0` (and positive `codeword_len`) the generalized branch
raises: `math.log2` sees a non-positive argument. -/
theorem samples_from_reception_checked_none (sec_par k n : ℤ) (hk : k ≤ 0) (hn : 1 ≤ n) :
    samples_from_reception_checked sec_par k n = none := by
  have hprod : (k - 1) * n ≤ 0 :=
    mul_nonpos_of_nonpos_of_nonneg (by omega) (by omega)
  unfold samples_from_reception_checked
  rw [if_neg (by omega), if_neg (by omega), if_neg (by omega), if_pos hprod]

/-- Success evaluation of `makeRSCode` on the raise-free range. -/
theorem makeRSCode_eq_some (fsize k n : ℤ) (h1 : 1 ≤ k) (h2 : k ≤ n)
    (h3 : (n : ℚ) ≤ (2 : ℚ) ^ fsize) :
    makeRSCode fsize k n =
      some ⟨fsize, fsize, k, n, k, samples_from_reception SECPAR_SOUND k n⟩ := by
  unfold makeRSCode
  rw [if_pos ⟨h2, h3⟩, samples_from_reception_checked_eq SECPAR_SOUND k n h1 h2]
  rfl

/-- Counterexample to C6 as stated: `makeRSCode 5 0 4` passes both asserts
(`0 ≤ 4` and `4 ≤ 2^5`) but then fails, because `samples_from_reception`
raises at `math.log2((0-1)/4)`; so failure is not equivalent to
`k > n ∨ 2^fsize < n`. -/
theorem claim_C6_counterexample :
    makeRSCode 5 0 4 = none ∧
    ¬ ((4 : ℤ) < 0 ∨ (2 : ℚ) ^ (5 : ℤ) < ((4 : ℤ) : ℚ)) := by
  constructor
  · unfold makeRSCode
    rw [if_pos ⟨by norm_num, by norm_num⟩,
      samples_from_reception_checked_none SECPAR_SOUND 0 4 (by norm_num) (by norm_num)]
    rfl
  · push_neg
    constructor <;> norm_num

/-- Claim C6 (amended): for `n ≥ 1`, `makeRSCode(fsize, k, n)` fails iff
`k > n`, or `2^fsize < n`, or `k ≤ 0` (the `samples_from_reception` call
raises inside the constructor); when `1 ≤ k ≤ n` and `2^fsize ≥ n` it returns
the code with symbol sizes `fsize`, message length `k`, codeword length `n`,
reception `k` and samples `samples_from_reception(40, k, n)`. -/
theorem claim_C6_amended (fsize k n : ℤ) (hn : 1 ≤ n) :
    (makeRSCode fsize k n = none ↔
      (n < k ∨ (2 : ℚ) ^ fsize < (n : ℚ) ∨ k ≤ 0)) ∧
    (1 ≤ k → k ≤ n → (n : ℚ) ≤ (2 : ℚ) ^ fsize →
      makeRSCode fsize k n =
        some ⟨fsize, fsize, k, n, k, samples_from_reception SECPAR_SOUND k n⟩) := by
  refine ⟨⟨?_, ?_⟩, fun h1 h2 h3 => makeRSCode_eq_some fsize k n h1 h2 h3⟩
  · intro hnone
    by_contra hcon
    push_neg at hcon
    obtain ⟨hkn, h2f, hk⟩ := hcon
    rw [makeRSCode_eq_some fsize k n (by omega) (by omega) h2f] at hnone
    exact Option.some_ne_none _ hnone
  · intro hOr
    unfold makeRSCode
    by_cases hguard : k ≤ n ∧ (n : ℚ) ≤ (2 : ℚ) ^ fsize
    · rw [if_pos hguard]
      have hk0 : k ≤ 0 := by
        rcases hOr with h | h | h
        · omega
        · exact absurd hguard.2 (not_le.mpr h)
        · exact h
      rw [samples_from_reception_checked_none SECPAR_SOUND k n hk0 hn]
      rfl
    · rw [if_neg hguard]

/-- Witness for C6 (amended) at `fsize = 5`, `k = 2`, `n = 4`. -/
theorem claim_C6_witness :
    (1 : ℤ) ≤ 4 ∧ (1 : ℤ) ≤ 2 ∧ (2 : ℤ) ≤ 4 ∧ ((4 : ℤ) : ℚ) ≤ (2 : ℚ) ^ (5 : ℤ) ∧
    makeRSCode 5 2 4 = some ⟨5, 5, 2, 4, 2, samples_from_reception SECPAR_SOUND 2 4⟩ :=
  ⟨by norm_num, by norm_num, by norm_num, by norm_num,
    (claim_C6_amended 5 2 4 (by norm_num)).2 (by norm_num) (by norm_num) (by norm_num)⟩

/-- Claim C2: `samples_from_reception(sec_par, reception, codeword_len)`
returns 1 when `reception == 1`; the classical coupon-collector bound
`ceil((n / log2 e) * (log2 n + sec_par))` when `reception == codeword_len`;
and otherwise the generalized coupon-collector bound
`ceil(-sec_par / log2 c + (1 - log_c e) * delta)` with `delta = reception - 1`
and `c = delta / codeword_len`. -/
theorem claim_C2 (sec_par reception codeword_len : ℤ) (hs : 1 ≤ sec_par)
    (h1 : 1 ≤ reception) (h2 : reception ≤ codeword_len) :
    (reception = 1 → samples_from_reception sec_par reception codeword_len = 1) ∧
    (reception ≠ 1 → reception = codeword_len →
      samples_from_reception sec_par reception codeword_len =
        ⌈((codeword_len : ℝ) / Real.logb 2 (Real.exp 1)) *
          (Real.logb 2 (codeword_len : ℝ) + (sec_par : ℝ))⌉) ∧
    (reception ≠ 1 → reception ≠ codeword_len →
      samples_from_reception sec_par reception codeword_len =
        ⌈-(sec_par : ℝ) / Real.logb 2 (((reception : ℝ) - 1) / (codeword_len : ℝ)) +
          (1 - Real.logb (((reception : ℝ) - 1) / (codeword_len : ℝ)) (Real.exp 1)) *
            ((reception : ℝ) - 1)⌉) := by
  unfold samples_from_reception
  exact ⟨fun h => by rw [if_pos h],
    fun hne heq => by rw [if_neg hne, if_pos heq],
    fun hne hne2 => by rw [if_neg hne, if_neg hne2]⟩

/-- Witness for C2 at `sec_par = 40`, `reception = 3`, `codeword_len = 5`. -/
theorem claim_C2_witness :
    (1 : ℤ) ≤ 40 ∧ (1 : ℤ) ≤ 3 ∧ (3 : ℤ) ≤ 5 ∧
    (((3 : ℤ) = 1 → samples_from_reception 40 3 5 = 1) ∧
    ((3 : ℤ) ≠ 1 → (3 : ℤ) = 5 →
      samples_from_reception 40 3 5 =
        ⌈(((5 : ℤ) : ℝ) / Real.logb 2 (Real.exp 1)) *
          (Real.logb 2 ((5 : ℤ) : ℝ) + ((40 : ℤ) : ℝ))⌉) ∧
    ((3 : ℤ) ≠ 1 → (3 : ℤ) ≠ 5 →
      samples_from_reception 40 3 5 =
        ⌈-((40 : ℤ) : ℝ) / Real.logb 2 ((((3 : ℤ) : ℝ) - 1) / ((5 : ℤ) : ℝ)) +
          (1 - Real.logb ((((3 : ℤ) : ℝ) - 1) / ((5 : ℤ) : ℝ)) (Real.exp 1)) *
            (((3 : ℤ) : ℝ) - 1)⌉)) :=
  ⟨by decide, by decide, by decide, claim_C2 40 3 5 (by decide) (by decide) (by decide)⟩

/-- Success evaluation of `Code.tensor`: with matching symbol sizes and
`2 ≤ reception ≤ codeword_len` in each factor, no raise path is taken and the
tensor code is produced. -/
theorem tensor_eq_some (row col : Code)
    (h1 : row.size_msg_symbol = col.size_msg_symbol)
    (h2 : row.size_code_symbol = col.size_code_symbol)
    (h3 : row.size_msg_symbol = row.size_code_symbol)
    (hr2 : 2 ≤ row.reception) (hrn : row.reception ≤ row.codeword_len)
    (hc2 : 2 ≤ col.reception) (hcn : col.reception ≤ col.codeword_len) :
    row.tensor col =
      some ⟨row.size_msg_symbol, row.size_code_symbol, row.msg_len * col.msg_len,
        row.codeword_len * col.codeword_len,
        row.codeword_len * col.codeword_len -
          (row.codeword_len - row.reception + 1) *
            (col.codeword_len - col.reception + 1) + 1,
        min (min (tensorSamplesDirectViaRows row col) (tensorSamplesDirectViaCols row col))
          (tensorSamplesViaReception row col)⟩ := by
  have hrcl : (2 : ℤ) ≤ row.codeword_len := le_trans hr2 hrn
  have hccl : (2 : ℤ) ≤ col.codeword_len := le_trans hc2 hcn
  have hab : (row.codeword_len - row.reception + 1) *
      (col.codeword_len - col.reception + 1) ≤ row.codeword_len * col.codeword_len :=
    mul_le_mul (by omega) (by omega) (by omega) (by omega)
  have hab1 : (1 : ℤ) ≤ (row.codeword_len - row.reception + 1) *
      (col.codeword_len - col.reception + 1) := by
    calc (1 : ℤ) = 1 * 1 := by norm_num
      _ ≤ _ := mul_le_mul (by omega) (by omega) (by norm_num) (by omega)
  have hclpos : (0 : ℤ) < row.codeword_len * col.codeword_len :=
    mul_pos (by omega) (by omega)
  have hRlo : (1 : ℤ) ≤ row.codeword_len * col.codeword_len -
      (row.codeword_len - row.reception + 1) *
        (col.codeword_len - col.reception + 1) + 1 := by omega
  have hRhi : row.codeword_len * col.codeword_len -
      (row.codeword_len - row.reception + 1) *
        (col.codeword_len - col.reception + 1) + 1 ≤
      row.codeword_len * col.codeword_len := by omega
  have hclR : (0 : ℝ) < ((row.codeword_len * col.codeword_len : ℤ) : ℝ) := by
    exact_mod_cast hclpos
  have hrowle : row.codeword_len ≤ row.codeword_len * col.codeword_len :=
    le_mul_of_one_le_right (by omega) (by omega)
  have hcolle : col.codeword_len ≤ row.codeword_len * col.codeword_len := by
    calc col.codeword_len = 1 * col.codeword_len := (one_mul _).symm
      _ ≤ row.codeword_len * col.codeword_len :=
        mul_le_mul (by omega) (by omega) (by omega) (by omega)
  have hrnum : ((row.codeword_len : ℝ) - (row.reception : ℝ) + 1) <
      ((row.codeword_len * col.codeword_len : ℤ) : ℝ) := by
    have hz : row.codeword_len - row.reception + 1 <
        row.codeword_len * col.codeword_len := by omega
    exact_mod_cast hz
  have hrnumpos : (0 : ℝ) < (row.codeword_len : ℝ) - (row.reception : ℝ) + 1 := by
    have hz : (0 : ℤ) < row.codeword_len - row.reception + 1 := by omega
    exact_mod_cast hz
  have hcnum : ((col.codeword_len : ℝ) - (col.reception : ℝ) + 1) <
      ((row.codeword_len * col.codeword_len : ℤ) : ℝ) := by
    have hz : col.codeword_len - col.reception + 1 <
        row.codeword_len * col.codeword_len := by omega
    exact_mod_cast hz
  have hcnumpos : (0 : ℝ) < (col.codeword_len : ℝ) - (col.reception : ℝ) + 1 := by
    have hz : (0 : ℤ) < col.codeword_len - col.reception + 1 := by omega
    exact_mod_cast hz
  have hrdiv1 : ((row.codeword_len : ℝ) - (row.reception : ℝ) + 1) /
      ((row.codeword_len * col.codeword_len : ℤ) : ℝ) < 1 := (div_lt_one hclR).mpr hrnum
  have hrdiv0 : 0 < ((row.codeword_len : ℝ) - (row.reception : ℝ) + 1) /
      ((row.codeword_len * col.codeword_len : ℤ) : ℝ) := div_pos hrnumpos hclR
  have hcdiv1 : ((col.codeword_len : ℝ) - (col.reception : ℝ) + 1) /
      ((row.codeword_len * col.codeword_len : ℤ) : ℝ) < 1 := (div_lt_one hclR).mpr hcnum
  have hcdiv0 : 0 < ((col.codeword_len : ℝ) - (col.reception : ℝ) + 1) /
      ((row.codeword_len * col.codeword_len : ℤ) : ℝ) := div_pos hcnumpos hclR
  have hlogr : Real.logb 2
      (1 - ((row.codeword_len : ℝ) - (row.reception : ℝ) + 1) /
        ((row.codeword_len * col.codeword_len : ℤ) : ℝ)) ≠ 0 :=
    ne_of_lt (Real.logb_neg (by norm_num) (by linarith) (by linarith))
  have hlogc : Real.logb 2
      (1 - ((col.codeword_len : ℝ) - (col.reception : ℝ) + 1) /
        ((row.codeword_len * col.codeword_len : ℤ) : ℝ)) ≠ 0 :=
    ne_of_lt (Real.logb_neg (by norm_num) (by linarith) (by linarith))
  unfold Code.tensor tensorSamplesViaReception tensorSamplesDirectViaRows
    tensorSamplesDirectViaCols
  rw [if_pos ⟨h1, h2, h3⟩]
  change (samples_from_reception_checked SECPAR_SOUND
    (row.codeword_len * col.codeword_len -
      (row.codeword_len - row.reception + 1) *
        (col.codeword_len - col.reception + 1) + 1)
    (row.codeword_len * col.codeword_len)).bind _ = _
  rw [samples_from_reception_checked_eq SECPAR_SOUND _ _ hRlo hRhi, Option.some_bind]
  dsimp only
  rw [if_neg (by omega), if_neg (by omega), if_neg (by omega),
    if_neg (ne_of_gt hclpos), if_neg (by linarith), if_neg (by omega),
    if_neg (by linarith), if_neg hlogr, if_neg hlogc]

/-- Counterexample to C3 as stated: `makeRSCode 5 1 4` is a legitimate code
satisfying all of tensor's preconditions (equal symbol sizes), but its
self-tensor fails: the factor has `reception = 1`, so the source raises at
`math.log2(self.reception - 1) = log2(0)`, and no tensor code with the
claimed `codeword_len` and `reception` is produced. -/
theorem claim_C3_counterexample :
    makeRSCode 5 1 4 =
      some (Code.mk 5 5 1 4 1 (samples_from_reception SECPAR_SOUND 1 4)) ∧
    ((makeRSCode 5 1 4).bind (fun c => c.tensor c)).map Code.codeword_len = none := by
  have h := makeRSCode_eq_some 5 1 4 (by norm_num) (by norm_num) (by norm_num)
  refine ⟨h, ?_⟩
  rw [h, Option.some_bind]
  have ht : (Code.mk 5 5 1 4 1 (samples_from_reception SECPAR_SOUND 1 4)).tensor
      (Code.mk 5 5 1 4 1 (samples_from_reception SECPAR_SOUND 1 4)) = none := by
    unfold Code.tensor
    rw [if_pos ⟨rfl, rfl, rfl⟩]
    change (samples_from_reception_checked SECPAR_SOUND
      ((4 : ℤ) * 4 - (4 - 1 + 1) * (4 - 1 + 1) + 1) (4 * 4)).bind _ = _
    rw [show samples_from_reception_checked SECPAR_SOUND
        ((4 : ℤ) * 4 - (4 - 1 + 1) * (4 - 1 + 1) + 1) (4 * 4) = some 1 from by
      unfold samples_from_reception_checked
      norm_num]
    rw [Option.some_bind]
    dsimp only
    rw [if_neg (by norm_num), if_neg (by norm_num), if_pos (by norm_num)]
  rw [ht]
  rfl

/-- Claim C3 (amended): for factors with matching symbol sizes and
`2 ≤ reception ≤ codeword_len` in each factor (excluding the inputs on which
the source raises at `log2(reception - 1)` or in the inner-probability logs),
the tensor code's codeword length is the product of the factors' codeword
lengths and its reception is `codeword_len - rowDist * colDist + 1`; in
particular the `RS(5,2,4)` self-tensor has reception 8 and the
`RS(128,4,16)` self-tensor has reception 88. -/
theorem claim_C3_amended (row col : Code)
    (h1 : row.size_msg_symbol = col.size_msg_symbol)
    (h2 : row.size_code_symbol = col.size_code_symbol)
    (h3 : row.size_msg_symbol = row.size_code_symbol)
    (hr2 : 2 ≤ row.reception) (hrn : row.reception ≤ row.codeword_len)
    (hc2 : 2 ≤ col.reception) (hcn : col.reception ≤ col.codeword_len) :
    (row.tensor col).map Code.codeword_len =
      some (row.codeword_len * col.codeword_len) ∧
    (row.tensor col).map Code.reception =
      some (row.codeword_len * col.codeword_len -
        (row.codeword_len - row.reception + 1) *
          (col.codeword_len - col.reception + 1) + 1) ∧
    ((makeRSCode 5 2 4).bind (fun c => c.tensor c)).map Code.reception = some 8 ∧
    ((makeRSCode 128 4 16).bind (fun c => c.tensor c)).map Code.reception = some 88 := by
  rw [tensor_eq_some row col h1 h2 h3 hr2 hrn hc2 hcn]
  refine ⟨rfl, rfl, ?_, ?_⟩
  · rw [makeRSCode_eq_some 5 2 4 (by norm_num) (by norm_num) (by norm_num),
      Option.some_bind,
      tensor_eq_some _ _ rfl rfl rfl (by decide) (by decide) (by decide) (by decide),
      Option.map_some']
    norm_num
  · rw [makeRSCode_eq_some 128 4 16 (by norm_num) (by norm_num) (by norm_num),
      Option.some_bind,
      tensor_eq_some _ _ rfl rfl rfl (by decide) (by decide) (by decide) (by decide),
      Option.map_some']
    norm_num

/-- Witness for C3 (amended) at `row = col = Code.mk 5 5 2 4 2 0`. -/
theorem claim_C3_witness :
    ((Code.mk 5 5 2 4 2 0).tensor (Code.mk 5 5 2 4 2 0)).map Code.codeword_len =
      some 16 ∧
    ((Code.mk 5 5 2 4 2 0).tensor (Code.mk 5 5 2 4 2 0)).map Code.reception = some 8 ∧
    ((makeRSCode 5 2 4).bind (fun c => c.tensor c)).map Code.reception = some 8 ∧
    ((makeRSCode 128 4 16).bind (fun c => c.tensor c)).map Code.reception = some 88 :=
  claim_C3_amended (Code.mk 5 5 2 4 2 0) (Code.mk 5 5 2 4 2 0) rfl rfl rfl
    (by decide) (by decide) (by decide) (by decide)

/-- Counterexample to C4 as stated: `row = Code(1,1,1,0,2,0)` and
`col = Code(1,1,1,1,2,0)` satisfy all of C4's hypotheses (equal symbol sizes
and `reception ≥ 2` in each factor), but the source raises at
`lognr = math.log2(0)` because `row.codeword_len = 0`, so the tensor's
`samples` is never produced. -/
theorem claim_C4_counterexample :
    ((Code.mk 1 1 1 0 2 0).tensor (Code.mk 1 1 1 1 2 0)).map Code.samples ≠
      some (min (tensorSamplesViaReception (Code.mk 1 1 1 0 2 0) (Code.mk 1 1 1 1 2 0))
        (min (tensorSamplesDirectViaRows (Code.mk 1 1 1 0 2 0) (Code.mk 1 1 1 1 2 0))
          (tensorSamplesDirectViaCols (Code.mk 1 1 1 0 2 0) (Code.mk 1 1 1 1 2 0)))) := by
  have ht : (Code.mk 1 1 1 0 2 0).tensor (Code.mk 1 1 1 1 2 0) = none := by
    unfold Code.tensor
    rw [if_pos ⟨rfl, rfl, rfl⟩]
    change (samples_from_reception_checked SECPAR_SOUND
      ((0 : ℤ) * 1 - (0 - 2 + 1) * (1 - 2 + 1) + 1) (0 * 1)).bind _ = _
    rw [show samples_from_reception_checked SECPAR_SOUND
        ((0 : ℤ) * 1 - (0 - 2 + 1) * (1 - 2 + 1) + 1) (0 * 1) = some 1 from by
      unfold samples_from_reception_checked
      norm_num]
    rw [Option.some_bind]
    dsimp only
    rw [if_neg (by norm_num), if_pos (by norm_num)]
  rw [ht]
  exact (Option.noConfusion ·)

/-- Claim C4 (amended): for factors with matching symbol sizes and
`2 ≤ reception ≤ codeword_len` in each factor (the reception upper bound, the
spec's Code invariant, excludes the inputs on which the source raises in the
direct-bound logarithms), the tensor code's `samples` field is the minimum of
the three bounds (reception-based, row-direct, column-direct), hence at most
each of them individually. -/
theorem claim_C4_amended (row col : Code)
    (h1 : row.size_msg_symbol = col.size_msg_symbol)
    (h2 : row.size_code_symbol = col.size_code_symbol)
    (h3 : row.size_msg_symbol = row.size_code_symbol)
    (hr2 : 2 ≤ row.reception) (hrn : row.reception ≤ row.codeword_len)
    (hc2 : 2 ≤ col.reception) (hcn : col.reception ≤ col.codeword_len) :
    (row.tensor col).map Code.samples =
      some (min (tensorSamplesViaReception row col)
        (min (tensorSamplesDirectViaRows row col) (tensorSamplesDirectViaCols row col))) ∧
    min (tensorSamplesViaReception row col)
        (min (tensorSamplesDirectViaRows row col) (tensorSamplesDirectViaCols row col)) ≤
      tensorSamplesViaReception row col ∧
    min (tensorSamplesViaReception row col)
        (min (tensorSamplesDirectViaRows row col) (tensorSamplesDirectViaCols row col)) ≤
      tensorSamplesDirectViaRows row col ∧
    min (tensorSamplesViaReception row col)
        (min (tensorSamplesDirectViaRows row col) (tensorSamplesDirectViaCols row col)) ≤
      tensorSamplesDirectViaCols row col := by
  refine ⟨?_, min_le_left _ _, le_trans (min_le_right _ _) (min_le_left _ _),
    le_trans (min_le_right _ _) (min_le_right _ _)⟩
  rw [tensor_eq_some row col h1 h2 h3 hr2 hrn hc2 hcn, Option.map_some']
  rw [Option.some.injEq, min_comm]

/-- Witness for C4 (amended) at `row = col = Code.mk 5 5 2 4 2 0`. -/
theorem claim_C4_witness :
    ((Code.mk 5 5 2 4 2 0).tensor (Code.mk 5 5 2 4 2 0)).map Code.samples =
      some (min (tensorSamplesViaReception (Code.mk 5 5 2 4 2 0) (Code.mk 5 5 2 4 2 0))
        (min (tensorSamplesDirectViaRows (Code.mk 5 5 2 4 2 0) (Code.mk 5 5 2 4 2 0))
          (tensorSamplesDirectViaCols (Code.mk 5 5 2 4 2 0) (Code.mk 5 5 2 4 2 0)))) ∧
    min (tensorSamplesViaReception (Code.mk 5 5 2 4 2 0) (Code.mk 5 5 2 4 2 0))
        (min (tensorSamplesDirectViaRows (Code.mk 5 5 2 4 2 0) (Code.mk 5 5 2 4 2 0))
          (tensorSamplesDirectViaCols (Code.mk 5 5 2 4 2 0) (Code.mk 5 5 2 4 2 0))) ≤
      tensorSamplesViaReception (Code.mk 5 5 2 4 2 0) (Code.mk 5 5 2 4 2 0) :=
  have h := claim_C4_amended (Code.mk 5 5 2 4 2 0) (Code.mk 5 5 2 4 2 0) rfl rfl rfl
    (by decide) (by decide) (by decide) (by decide)
  ⟨h.1, h.2.1⟩

/-- Soundness of the fuel-indexed loop: a returned round count `r` reaches
`mink` and every earlier round count does not. -/
theorem friNumRoundsAux_sound (fanin mink : ℤ) :
    ∀ (fuel : ℕ) (dimension : ℤ) (r : ℕ),
      friNumRoundsAux fanin mink fuel dimension = some r →
      mink ≤ dimension * fanin ^ r ∧ ∀ j : ℕ, j < r → dimension * fanin ^ j < mink := by
  intro fuel
  induction fuel with
  | zero =>
    intro dimension r h
    unfold friNumRoundsAux at h
    by_cases hd : dimension < mink
    · rw [if_pos hd] at h
      exact absurd h (by simp)
    · rw [if_neg hd] at h
      simp only [Option.some.injEq] at h
      subst h
      refine ⟨by simpa using not_lt.mp hd, ?_⟩
      intro j hj
      omega
  | succ f ih =>
    intro dimension r h
    unfold friNumRoundsAux at h
    by_cases hd : dimension < mink
    · rw [if_pos hd] at h
      obtain ⟨r0, hr0, hmap⟩ := Option.map_eq_some'.mp h
      obtain ⟨hle, hlt⟩ := ih (dimension * fanin) r0 hr0
      constructor
      · calc mink ≤ dimension * fanin * fanin ^ r0 := hle
          _ = dimension * fanin ^ (r0 + 1) := by ring
          _ = dimension * fanin ^ r := by rw [hmap]
      · intro j hj
        cases j with
        | zero => simpa using hd
        | succ j0 =>
          have hj0 : j0 < r0 := by omega
          calc dimension * fanin ^ (j0 + 1) = dimension * fanin * fanin ^ j0 := by ring
            _ < mink := hlt j0 hj0
    · rw [if_neg hd] at h
      simp only [Option.some.injEq] at h
      subst h
      refine ⟨by simpa using not_lt.mp hd, ?_⟩
      intro j hj
      omega

/-- Completeness of the fuel-indexed loop: fuel `fuel` suffices whenever
`dimension * fanin ^ fuel` already reaches `mink`. -/
theorem friNumRoundsAux_some (fanin mink : ℤ) :
    ∀ (fuel : ℕ) (dimension : ℤ), mink ≤ dimension * fanin ^ fuel →
      ∃ r, friNumRoundsAux fanin mink fuel dimension = some r := by
  intro fuel
  induction fuel with
  | zero =>
    intro dimension h
    refine ⟨0, ?_⟩
    unfold friNumRoundsAux
    rw [if_neg (not_lt.mpr (by simpa using h))]
  | succ f ih =>
    intro dimension h
    unfold friNumRoundsAux
    by_cases hd : dimension < mink
    · rw [if_pos hd]
      obtain ⟨r0, hr0⟩ := ih (dimension * fanin)
        (by calc mink ≤ dimension * fanin ^ (f + 1) := h
              _ = dimension * fanin * fanin ^ f := by ring)
      exact ⟨r0 + 1, by rw [hr0]; rfl⟩
    · exact ⟨0, by rw [if_neg hd]⟩

/-- Claim C8: for `mink ≥ 1`, `fanin ≥ 2`, `basedimension ≥ 1`, the
`friNumRounds` loop terminates (returns `some r`) and the returned `r` is the
smallest round count with `basedimension * fanin ^ r ≥ mink`: it satisfies the
bound, and if `r > 0` then `basedimension * fanin ^ (r-1) < mink`. -/
theorem claim_C8 (mink fanin basedimension : ℤ)
    (hm : 1 ≤ mink) (hf : 2 ≤ fanin) (hb : 1 ≤ basedimension) :
    friNumRounds mink fanin basedimension ≠ none ∧
    mink ≤ basedimension * fanin ^ ((friNumRounds mink fanin basedimension).getD 0) ∧
    (0 < (friNumRounds mink fanin basedimension).getD 0 →
      basedimension *
        fanin ^ ((friNumRounds mink fanin basedimension).getD 0 - 1) < mink) := by
  have hfuel : mink ≤ basedimension * fanin ^ mink.toNat := by
    have h1 : (mink.toNat : ℤ) = mink := Int.toNat_of_nonneg (by omega)
    have h2 : (mink.toNat : ℤ) < 2 ^ mink.toNat := by
      exact_mod_cast Nat.lt_two_pow mink.toNat
    have h3 : (2 : ℤ) ^ mink.toNat ≤ fanin ^ mink.toNat :=
      pow_le_pow_left₀ (by norm_num) hf _
    have h4 : (1 : ℤ) * fanin ^ mink.toNat ≤ basedimension * fanin ^ mink.toNat :=
      mul_le_mul_of_nonneg_right hb (pow_nonneg (by linarith) _)
    calc mink = (mink.toNat : ℤ) := h1.symm
      _ ≤ 2 ^ mink.toNat := h2.le
      _ ≤ fanin ^ mink.toNat := h3
      _ = 1 * fanin ^ mink.toNat := (one_mul _).symm
      _ ≤ basedimension * fanin ^ mink.toNat := h4
  obtain ⟨r, hr⟩ := friNumRoundsAux_some fanin mink mink.toNat basedimension hfuel
  obtain ⟨hle, hlt⟩ := friNumRoundsAux_sound fanin mink mink.toNat basedimension r hr
  have hrr : friNumRounds mink fanin basedimension = some r := hr
  rw [hrr]
  refine ⟨by simp, by simpa using hle, ?_⟩
  intro hpos
  simpa using hlt (r - 1) (by simpa using Nat.sub_lt hpos Nat.one_pos)

/-- Witness for C8 at `mink = 5`, `fanin = 2`, `basedimension = 1`. -/
theorem claim_C8_witness :
    (1 : ℤ) ≤ 5 ∧ (2 : ℤ) ≤ 2 ∧ (1 : ℤ) ≤ 1 ∧
    (friNumRounds 5 2 1 ≠ none ∧
      (5 : ℤ) ≤ 1 * 2 ^ ((friNumRounds 5 2 1).getD 0) ∧
      (0 < (friNumRounds 5 2 1).getD 0 →
        (1 : ℤ) * 2 ^ ((friNumRounds 5 2 1).getD 0 - 1) < 5)) :=
  ⟨by decide, by decide, by decide, claim_C8 5 2 1 (by decide) (by decide) (by decide)⟩

/-- Evaluation of `friLogEps1` when `domainsize = 2` and `batchsize = fanin = 2`. -/
theorem friLogEps1_two (fsize : ℤ) : friLogEps1 2 fsize 2 2 = 2 - fsize := by
  unfold friLogEps1
  have h2 : ((2 * (max (2 : ℤ) 2 - 1) : ℤ) : ℝ) = 2 := by norm_num
  rw [h2, Real.logb_self_eq_one (by norm_num)]
  norm_num

/-- Claim C7 (amended): `friNumRepetitions` fails whenever
`logeps1 > -FRI_SOUNDNESS`, and whenever it succeeds the returned value is
`ceil(-FRI_SOUNDNESS / log2(1 - 0.5 * (1 - rate)))` and the accepted
configuration satisfies `logeps1 <= -FRI_SOUNDNESS`. -/
theorem claim_C7_amended (rate : ℝ) (domainsize fsize batchsize fanin : ℤ) :
    (¬ friLogEps1 domainsize fsize batchsize fanin ≤ -FRI_SOUNDNESS →
      friNumRepetitions rate domainsize fsize batchsize fanin = none) ∧
    (∀ L : ℤ, friNumRepetitions rate domainsize fsize batchsize fanin = some L →
      L = ⌈-(FRI_SOUNDNESS : ℝ) / Real.logb 2 (1 - 0.5 * (1 - rate))⌉ ∧
      friLogEps1 domainsize fsize batchsize fanin ≤ -FRI_SOUNDNESS) := by
  constructor
  · intro hgate
    unfold friNumRepetitions
    split_ifs with h1
    · rfl
    · rfl
  · intro L hL
    unfold friNumRepetitions at hL
    split_ifs at hL with h1 h2 h3 h4
    simp only [Option.some.injEq] at hL
    exact ⟨hL.symm, h2⟩

/-- Counterexample to C7 as stated: at `rate = 1`, `domainsize = 2`,
`fsize = 1000`, `batchsize = fanin = 2` the function fails (its second
assertion `logbase < 0` is violated since `log2(1) = 0`) even though
`logeps1 = -998 ≤ -FRI_SOUNDNESS`, so failure is not equivalent to
`logeps1 > -FRI_SOUNDNESS`. -/
theorem claim_C7_counterexample :
    friNumRepetitions 1 2 1000 2 2 = none ∧
    friLogEps1 2 1000 2 2 ≤ -FRI_SOUNDNESS := by
  have hlog : friLogEps1 2 1000 2 2 = -998 := by rw [friLogEps1_two]; norm_num
  have hgate : friLogEps1 2 1000 2 2 ≤ -FRI_SOUNDNESS := by rw [hlog]; decide
  refine ⟨?_, hgate⟩
  unfold friNumRepetitions
  rw [if_pos (by norm_num), if_pos hgate, if_pos (by norm_num), if_neg]
  rw [show (1 - 0.5 * (1 - (1 : ℝ))) = 1 by norm_num, Real.logb_one]
  norm_num

/-- Witness for C7 (amended), first conjunct, at `rate = 0.5`,
`domainsize = 2`, `fsize = 1`, `batchsize = fanin = 2`. -/
theorem claim_C7_witness :
    ¬ friLogEps1 2 1 2 2 ≤ -FRI_SOUNDNESS ∧ friNumRepetitions 0.5 2 1 2 2 = none :=
  have hgate : ¬ friLogEps1 2 1 2 2 ≤ -FRI_SOUNDNESS := by
    rw [friLogEps1_two]; decide
  ⟨hgate, (claim_C7_amended 0.5 2 1 2 2).1 hgate⟩

/-- On the generalized coupon-collector branch (`2 ≤ reception ≤
codeword_len - 1`) the sampling bound equals
`ceil(sec_par * log 2 / u + (1 + 1/u) * (reception - 1))` with
`u = log codeword_len - log (reception - 1)`. -/
theorem sfr_middle (sec_par r n : ℤ) (h2 : 2 ≤ r) (hn : r ≤ n - 1) :
    samples_from_reception sec_par r n =
      ⌈(sec_par : ℝ) * Real.log 2 / (Real.log (n : ℝ) - Real.log ((r : ℝ) - 1)) +
        (1 + 1 / (Real.log (n : ℝ) - Real.log ((r : ℝ) - 1))) * ((r : ℝ) - 1)⌉ := by
  have hr' : (2 : ℝ) ≤ (r : ℝ) := by exact_mod_cast h2
  have hn' : (r : ℝ) ≤ (n : ℝ) - 1 := by
    have : ((r : ℤ) : ℝ) ≤ ((n - 1 : ℤ) : ℝ) := by exact_mod_cast hn
    push_cast at this
    linarith
  have hδpos : 0 < (r : ℝ) - 1 := by linarith
  have hnpos : 0 < (n : ℝ) := by linarith
  have hlogc : Real.log (((r : ℝ) - 1) / (n : ℝ)) =
      Real.log ((r : ℝ) - 1) - Real.log (n : ℝ) :=
    Real.log_div (ne_of_gt hδpos) (ne_of_gt hnpos)
  have hu : 0 < Real.log (n : ℝ) - Real.log ((r : ℝ) - 1) :=
    sub_pos.mpr (Real.log_lt_log hδpos (by linarith))
  have hL : 0 < Real.log 2 := Real.log_pos (by norm_num)
  unfold samples_from_reception
  rw [if_neg (by omega), if_neg (by omega)]
  congr 1
  unfold Real.logb
  rw [hlogc, Real.log_exp]
  have hne : Real.log ((r : ℝ) - 1) - Real.log (n : ℝ) ≠ 0 := by
    intro hzero
    rw [show Real.log ((r : ℝ) - 1) - Real.log (n : ℝ) =
      -(Real.log (n : ℝ) - Real.log ((r : ℝ) - 1)) by ring] at hzero
    exact (ne_of_gt hu) (by linarith [neg_eq_zero.mp hzero])
  field_simp
  ring

/-- On the classical coupon-collector branch (`reception = codeword_len ≥ 2`)
the sampling bound equals `ceil(n * (log n + sec_par * log 2))`. -/
theorem sfr_full (sec_par n : ℤ) (hn : 2 ≤ n) :
    samples_from_reception sec_par n n =
      ⌈(n : ℝ) * (Real.log (n : ℝ) + (sec_par : ℝ) * Real.log 2)⌉ := by
  have hL : Real.log 2 ≠ 0 := ne_of_gt (Real.log_pos (by norm_num))
  unfold samples_from_reception
  rw [if_neg (by omega), if_pos rfl]
  congr 1
  unfold Real.logb
  rw [Real.log_exp]
  field_simp
  ring

/-- The generalized coupon-collector bound is at least 1. -/
theorem sfr_middle_ge_one (r n : ℤ) (h2 : 2 ≤ r) (hn : r ≤ n - 1) :
    1 ≤ samples_from_reception 40 r n := by
  rw [sfr_middle 40 r n h2 hn]
  have hr' : (2 : ℝ) ≤ (r : ℝ) := by exact_mod_cast h2
  have hn' : (r : ℝ) ≤ (n : ℝ) - 1 := by
    have : ((r : ℤ) : ℝ) ≤ ((n - 1 : ℤ) : ℝ) := by exact_mod_cast hn
    push_cast at this
    linarith
  have hδpos : 0 < (r : ℝ) - 1 := by linarith
  have hu : 0 < Real.log (n : ℝ) - Real.log ((r : ℝ) - 1) :=
    sub_pos.mpr (Real.log_lt_log hδpos (by linarith))
  have hL : 0 < Real.log 2 := Real.log_pos (by norm_num)
  have hbound : (1 : ℝ) ≤
      (40 : ℝ) * Real.log 2 / (Real.log (n : ℝ) - Real.log ((r : ℝ) - 1)) +
        (1 + 1 / (Real.log (n : ℝ) - Real.log ((r : ℝ) - 1))) * ((r : ℝ) - 1) := by
    have t1 : 0 < (40 : ℝ) * Real.log 2 / (Real.log (n : ℝ) - Real.log ((r : ℝ) - 1)) := by
      positivity
    have t2 : 0 < 1 / (Real.log (n : ℝ) - Real.log ((r : ℝ) - 1)) := by positivity
    nlinarith
  have := le_trans hbound (Int.le_ceil _)
  push_cast at this ⊢
  exact_mod_cast this

/-- Monotonicity of the generalized coupon-collector branch in `reception`. -/
theorem sfr_middle_mono (r' r n : ℤ) (h2 : 2 ≤ r') (hrr : r' ≤ r) (hn : r ≤ n - 1) :
    samples_from_reception 40 r' n ≤ samples_from_reception 40 r n := by
  rw [sfr_middle 40 r' n h2 (by omega), sfr_middle 40 r n (by omega) hn]
  apply Int.ceil_le_ceil
  have hr2 : (2 : ℝ) ≤ (r' : ℝ) := by exact_mod_cast h2
  have hrr' : (r' : ℝ) ≤ (r : ℝ) := by exact_mod_cast hrr
  have hn' : (r : ℝ) ≤ (n : ℝ) - 1 := by
    have : ((r : ℤ) : ℝ) ≤ ((n - 1 : ℤ) : ℝ) := by exact_mod_cast hn
    push_cast at this
    linarith
  have hδ'pos : 0 < (r' : ℝ) - 1 := by linarith
  have hδpos : 0 < (r : ℝ) - 1 := by linarith
  have hu : 0 < Real.log (n : ℝ) - Real.log ((r : ℝ) - 1) :=
    sub_pos.mpr (Real.log_lt_log hδpos (by linarith))
  have huu : Real.log (n : ℝ) - Real.log ((r : ℝ) - 1) ≤
      Real.log (n : ℝ) - Real.log ((r' : ℝ) - 1) := by
    have := Real.log_le_log hδ'pos (show (r' : ℝ) - 1 ≤ (r : ℝ) - 1 by linarith)
    linarith
  have hu' : 0 < Real.log (n : ℝ) - Real.log ((r' : ℝ) - 1) := lt_of_lt_of_le hu huu
  have hL : 0 < Real.log 2 := Real.log_pos (by norm_num)
  have hinv : 1 / (Real.log (n : ℝ) - Real.log ((r' : ℝ) - 1)) ≤
      1 / (Real.log (n : ℝ) - Real.log ((r : ℝ) - 1)) :=
    one_div_le_one_div_of_le hu huu
  apply add_le_add
  · exact div_le_div_of_nonneg_left (by positivity) hu huu
  · apply mul_le_mul
    · linarith
    · linarith
    · linarith
    · have : 0 < 1 / (Real.log (n : ℝ) - Real.log ((r : ℝ) - 1)) := by positivity
      linarith

/-- Claim C9 (amended): for fixed `codeword_len = n ≥ 2` and `sec_par = 40`,
`samples_from_reception` is non-increasing in `reception` on the range
`1 ≤ reception ≤ n - 1` (the original claim's full range up to `n` fails:
see the counterexample at `reception = n`), and equals exactly 1 at
`reception = 1`. -/
theorem claim_C9_amended (r' r n : ℤ) (hn : 2 ≤ n) (h1 : 1 ≤ r') (h12 : r' ≤ r)
    (h3 : r ≤ n - 1) :
    samples_from_reception 40 r' n ≤ samples_from_reception 40 r n ∧
    samples_from_reception 40 1 n = 1 := by
  have hone : samples_from_reception 40 1 n = 1 := by
    unfold samples_from_reception
    rw [if_pos rfl]
  refine ⟨?_, hone⟩
  by_cases hr'1 : r' = 1
  · subst hr'1
    rw [hone]
    by_cases hr1 : r = 1
    · subst hr1
      rw [hone]
    · exact sfr_middle_ge_one r n (by omega) h3
  · exact sfr_middle_mono r' r n (by omega) h12 h3

/-- Witness for C9 (amended) at `r' = 2`, `r = 3`, `n = 5`. -/
theorem claim_C9_witness :
    (2 : ℤ) ≤ 5 ∧ (1 : ℤ) ≤ 2 ∧ (2 : ℤ) ≤ 3 ∧ (3 : ℤ) ≤ 5 - 1 ∧
    (samples_from_reception 40 2 5 ≤ samples_from_reception 40 3 5 ∧
      samples_from_reception 40 1 5 = 1) :=
  ⟨by decide, by decide, by decide, by decide,
    claim_C9_amended 2 3 5 (by decide) (by decide) (by decide) (by decide)⟩

/-- Counterexample to C9 as stated: at `codeword_len = 100` the bound is NOT
non-increasing up to `reception = codeword_len`: the value at `reception = 99`
(about 6322) exceeds the coupon-collector value at `reception = 100` (3234),
so `samples_from_reception 40 99 100 ≤ samples_from_reception 40 100 100`
fails. -/
theorem claim_C9_counterexample :
    ¬ samples_from_reception 40 99 100 ≤ samples_from_reception 40 100 100 := by
  have hfull : samples_from_reception 40 100 100 ≤ 3373 := by
    rw [sfr_full 40 100 (by norm_num), Int.ceil_le]
    push_cast
    have hl100 : Real.log 100 < 6 := by
      rw [Real.log_lt_iff_lt_exp (by norm_num)]
      calc (100 : ℝ) < 2.7182818283 ^ (6 : ℕ) := by norm_num
        _ < Real.exp 1 ^ (6 : ℕ) :=
          pow_lt_pow_left₀ Real.exp_one_gt_d9 (by norm_num) (by norm_num)
        _ = Real.exp 6 := by
          rw [← Real.exp_nat_mul]
          norm_num
    have hl2 : Real.log 2 < 0.6931471808 := Real.log_two_lt_d9
    have hl2' : 0 < Real.log 2 := Real.log_pos (by norm_num)
    nlinarith
  have hmid : (3373 : ℤ) < samples_from_reception 40 99 100 := by
    rw [sfr_middle 40 99 100 (by norm_num) (by norm_num), Int.lt_ceil]
    push_cast
    norm_num
    have hu : 0 < Real.log (100 : ℝ) - Real.log 98 :=
      sub_pos.mpr (Real.log_lt_log (by norm_num) (by norm_num))
    have hub : Real.log (100 : ℝ) - Real.log 98 ≤ 1 / 49 := by
      rw [← Real.log_div (by norm_num) (by norm_num)]
      have h := Real.log_le_sub_one_of_pos (show (0 : ℝ) < 100 / 98 by norm_num)
      nlinarith
    have hL : 0 < Real.log 2 := Real.log_pos (by norm_num)
    have hinv : (49 : ℝ) ≤ 1 / (Real.log (100 : ℝ) - Real.log 98) := by
      rw [le_div_iff₀ hu]
      nlinarith
    have ht1 : 0 < 40 * Real.log 2 / (Real.log (100 : ℝ) - Real.log 98) := by positivity
    rw [one_div] at hinv
    linarith
  intro h
  linarith

/-- Counterexample to C1 as stated: `Scheme.samples` recomputes the sampling
bound via `num_samples_to_reconstruction` instead of returning the stored
`code.samples` field, so for a scheme whose code stores `samples = 0` but has
`reception = codeword_len = 1` the method returns 1, not 0. -/
theorem claim_C1_counterexample :
    ¬ ((Scheme.mk (Code.mk 1 1 1 1 1 0) 0 0).samples =
        (Scheme.mk (Code.mk 1 1 1 1 1 0) 0 0).code.samples ∧
      (Scheme.mk (Code.mk 1 1 1 1 1 0) 0 0).total_comm =
        (Scheme.mk (Code.mk 1 1 1 1 1 0) 0 0).comm_per_query *
          (((Scheme.mk (Code.mk 1 1 1 1 1 0) 0 0).code.samples : ℤ) : ℝ)) := by
  intro h
  have h1 := h.1
  norm_num [Scheme.samples, Code.num_samples_to_reconstruction,
    samples_from_reception] at h1

/-- Claim C1 (amended): for every `Scheme` value `s`, `s.samples()` returns
the sampling bound recomputed from the code's `reception` and `codeword_len`
at the default soundness parameter 40 (via `num_samples_to_reconstruction`),
not the stored `code.samples` field, and `s.total_comm()` equals
`s.comm_per_query() * s.samples()`. -/
theorem claim_C1_amended (s : Scheme) :
    s.samples = samples_from_reception SECPAR_SOUND s.code.reception s.code.codeword_len ∧
    s.total_comm = s.comm_per_query * (s.samples : ℝ) :=
  ⟨rfl, rfl⟩
